import Mathlib

/-!
Verification of the pintos project-4 filesystem façade
(src/project4/src/filesys/filesys.c) and the free-map allocator interface
(src/trunk/project4/src/filesys/free-map.h).

The façade code is embedded directly from filesys.c.  The directory, inode
and free-map implementations are not part of the visible sources (only their
declarations and callers are), so they are modelled from the spec (sections
3, 4.1, 4.3, 4.4 of spec.md); each such definition carries a doc comment
starting with "Modelled from the spec:".
-/

/-- Modelled from the spec: fixed sector size of the block device
(spec section 3: "fixed-size (e.g. 512-byte) addressable unit").
`BLOCK_SECTOR_SIZE` comes from devices/block.h, which is not in the
visible sources. -/
def BLOCK_SECTOR_SIZE : Nat := 512

/-- Modelled from the spec: the root directory's fixed well-known sector
(spec section 6: sector 0 holds the free map's own content, the root
directory occupies a fixed well-known sector).  `ROOT_DIR_SECTOR` comes
from filesys.h, which is not in the visible sources. -/
def ROOT_DIR_SECTOR : Nat := 1

/-- Modelled from the spec: the sector holding the free map's own file
content (spec section 6: "Sector 0 ... = Free-Map's own file content"). -/
def FREE_MAP_SECTOR : Nat := 0

/-- Modelled from the spec: maximum length of a single file-name component
(spec section 7: NameTooLong when a component exceeds the maximum name
length).  `NAME_MAX` comes from directory.h, which is not in the visible
sources; the usual pintos value is 14. -/
def NAME_MAX : Nat := 14

/-- Modelled from the spec: byte size of one on-disk directory entry
(spec section 6: fixed-size record with a bounded fixed-width name, an
inode-sector integer and an in-use flag).  `sizeof (struct dir_entry)`
comes from directory.h, which is not in the visible sources; with a
14-character name this is 20 bytes. -/
def sizeof_dir_entry : Nat := 20

/-- File names and paths are modelled as lists of characters
(C strings of filesys.c). -/
abbrev FsName := List Char

abbrev FsPath := List Char

/-- Modelled from the spec: one on-disk directory entry (spec section 3,
"Directory Entry": name, inode-sector, in-use flag); `struct dir_entry`
of directory.h. -/
structure DirEntry where
  inode_sector : Nat
  name : FsName
  in_use : Bool
deriving DecidableEq

/-- Modelled from the spec: the on-disk inode record (spec section 3,
"Inode (on-disk)": logical byte length, is-directory flag,
parent-directory sector, data-sector layout) together with the
pending-removal flag of the in-memory inode (spec section 3,
"Inode (in-memory)"); `struct inode_disk` of inode.h. -/
structure InodeData where
  length : Nat
  is_dir : Bool
  parent_dir_sector : Nat
  data_sectors : List Nat
  removed : Bool
deriving DecidableEq

/-- Modelled from the spec: the whole filesystem state visible to the
façade — the free-map bitmap (spec section 3: one bit per sector,
true = free), the inode records keyed by home sector, and the directory
contents (entry sequences) keyed by the directory's inode sector. -/
structure FS where
  freeMap : List Bool
  inodes : List (Nat × InodeData)
  dirs : List (Nat × List DirEntry)
deriving DecidableEq

/-- Modelled from the spec: the per-execution-context current working
directory (spec section 3, "Current-Directory Context"); the `cwd_sector`
field of `struct thread` used by filesys.c. -/
structure Ctx where
  cwd_sector : Nat
deriving DecidableEq

/-- Association-list lookup used for the inode table, the directory table
and the open-file table. -/
def alist_get {α : Type} : List (Nat × α) → Nat → Option α
  | [], _ => none
  | kv :: rest, k => if kv.1 = k then some kv.2 else alist_get rest k

/-- Association-list update: replaces the binding of `k` or appends it. -/
def alist_set {α : Type} (l : List (Nat × α)) (k : Nat) (v : α) : List (Nat × α) :=
  match l with
  | [] => [(k, v)]
  | kv :: rest => if kv.1 = k then (k, v) :: rest else kv :: alist_set rest k v

theorem alist_get_set_self {α : Type} (l : List (Nat × α)) (k : Nat) (v : α) :
    alist_get (alist_set l k v) k = some v := by
  induction l with
  | nil => simp [alist_get, alist_set]
  | cons kv rest ih =>
    by_cases h : kv.1 = k
    · simp [alist_set, h, alist_get]
    · simpa [alist_set, h, alist_get] using ih

theorem alist_get_set_ne {α : Type} (l : List (Nat × α)) (k k' : Nat) (v : α)
    (h : k' ≠ k) : alist_get (alist_set l k v) k' = alist_get l k' := by
  induction l with
  | nil => simp [alist_get, alist_set, Ne.symm h]
  | cons kv rest ih =>
    by_cases hk : kv.1 = k
    · simp [alist_set, hk, alist_get, Ne.symm h]
    · by_cases hk' : kv.1 = k'
      · simp [alist_set, hk, alist_get, hk', h]
      · simpa [alist_set, hk, alist_get, hk'] using ih

/-- Reads an inode record by its home sector (`inode_open` / the inode
table, modelled from the spec as a lookup keyed by sector). -/
def inode_get (fs : FS) (s : Nat) : Option InodeData :=
  alist_get fs.inodes s

/-- Reads a directory's entry sequence by its inode sector. -/
def dir_content (fs : FS) (s : Nat) : Option (List DirEntry) :=
  alist_get fs.dirs s

/-- Modelled from the spec: `inode_is_dir` of inode.c — the is-directory
flag stored in the inode record (a missing record is treated as "not a
directory"). -/
def inode_is_dir (fs : FS) (s : Nat) : Bool :=
  match inode_get fs s with
  | none => false
  | some i => i.is_dir

/-- Modelled from the spec: the free map's scan for the first free sector
(spec section 4.1: "first sufficiently-large free run found"). -/
def first_free : List Bool → Option Nat
  | [] => none
  | b :: rest => if b then some 0 else (first_free rest).map (fun i => i + 1)

/-- Modelled from the spec: `free_map_allocate_one` of free-map.c
(declared in src/trunk/project4/src/filesys/free-map.h line 15) —
allocates the first free sector, marking its bit in-use; fails with
NoSpace when no bit is free. -/
def free_map_allocate_one (m : List Bool) : Option (Nat × List Bool) :=
  match first_free m with
  | none => none
  | some i => some (i, m.set i false)

/-- Modelled from the spec: `free_map_release` of free-map.c (declared in
free-map.h line 18) — marks `cnt` sectors starting at `sector` free
again. -/
def free_map_release (sector cnt : Nat) (m : List Bool) : List Bool :=
  match cnt with
  | 0 => m
  | n + 1 => free_map_release (sector + 1) n (m.set sector true)

/-- Modelled from the spec: allocation of `n` data sectors for an inode's
layout (`free_map_allocate_multiple` of free-map.h line 16, used by the
inode layer to reserve the sectors for a requested length). -/
def free_map_allocate_n : Nat → List Bool → Option (List Nat × List Bool)
  | 0, m => some ([], m)
  | n + 1, m =>
    match free_map_allocate_one m with
    | none => none
    | some (s, m') =>
      match free_map_allocate_n n m' with
      | none => none
      | some (ss, m'') => some (s :: ss, m'')

theorem first_free_get : ∀ (m : List Bool) (i : Nat),
    first_free m = some i → m[i]? = some true := by
  intro m
  induction m with
  | nil => intro i h; simp [first_free] at h
  | cons b rest ih =>
    intro i h
    cases b with
    | true =>
      simp [first_free] at h
      subst h
      simp
    | false =>
      simp [first_free] at h
      obtain ⟨j, hj, hij⟩ := h
      subst hij
      simpa using ih j hj

theorem free_map_allocate_one_some (m : List Bool) (s : Nat) (m' : List Bool)
    (h : free_map_allocate_one m = some (s, m')) :
    m[s]? = some true ∧ m' = m.set s false := by
  unfold free_map_allocate_one at h
  cases hf : first_free m with
  | none => rw [hf] at h; cases h
  | some i =>
    rw [hf] at h
    simp at h
    obtain ⟨hs, hm⟩ := h
    constructor
    · rw [← hs]
      exact first_free_get m i hf
    · rw [← hm, hs]

theorem list_set_set_cancel : ∀ (l : List Bool) (i : Nat),
    l[i]? = some true → (l.set i false).set i true = l := by
  intro l
  induction l with
  | nil => intro i _; simp
  | cons b rest ih =>
    intro i h
    cases i with
    | zero =>
      simp at h
      simp [List.set, h]
    | succ j =>
      simp at h
      simp [List.set, ih j h]

/-- Claim C9: a successful `free_map_allocate_one` returning sector `s`,
immediately followed by `free_map_release s 1`, restores the free-map
bitmap to exactly its state before the allocation. -/
theorem free_map_alloc_release_symm (m : List Bool) (s : Nat) (m' : List Bool)
    (h : free_map_allocate_one m = some (s, m')) :
    free_map_release s 1 m' = m := by
  obtain ⟨hget, hm⟩ := free_map_allocate_one_some m s m' h
  subst hm
  show ((m.set s false).set s true) = m
  exact list_set_set_cancel m s hget

/-- Witness for C9 on the concrete bitmap `[false, true]`. -/
theorem free_map_alloc_release_symm_witness :
    free_map_release 1 1 [false, false] = [false, true] :=
  free_map_alloc_release_symm [false, true] 1 [false, false] (by decide)

/-- Modelled from the spec: splitting a path at `/` separators
(spec section 4.5: "`/`-separated components"). -/
def splitOnSlash : List Char → List (List Char)
  | [] => [[]]
  | c :: rest =>
    match splitOnSlash rest with
    | [] => [[]]
    | g :: gs => if c = '/' then [] :: g :: gs else (c :: g) :: gs

/-- Modelled from the spec: `dir_get_leaf_name` of directory.c — splits
off the final path component (spec section 4.5: "`parse(path) ->
(parent_path, leaf_name)` splits off the final component"); it returns
success only for a non-empty leaf of legal length, and an empty leaf
(a path ending in `/`) yields failure with an empty name written to the
buffer. -/
def dir_get_leaf_name (p : FsPath) : Bool × FsName :=
  let leaf := (splitOnSlash p).getLastD []
  ((decide (leaf ≠ []) && decide (leaf.length ≤ NAME_MAX)), leaf)

/-- Modelled from the spec: a leading `/` denotes an absolute,
root-relative path (spec section 4.5). -/
def path_is_absolute (p : FsPath) : Bool :=
  p.head? = some '/'

/-- Modelled from the spec: the components of the parent path (all
components except the final one, empty components dropped). -/
def parent_comps (p : FsPath) : List FsName :=
  ((splitOnSlash p).dropLast).filter (fun c => c ≠ [])

/-- Modelled from the spec: `dir_lookup` of directory.c — a linear scan
of the in-use entries for an exact name match; the special names `.`
(self) and `..` (the parent-directory sector stored in the inode record)
are resolved without a scan (spec section 4.4). -/
def dir_lookup (fs : FS) (dirSector : Nat) (name : FsName) : Option Nat :=
  if name = ['.'] then some dirSector
  else if name = ['.', '.'] then
    (inode_get fs dirSector).map (fun i => i.parent_dir_sector)
  else
    match dir_content fs dirSector with
    | none => none
    | some entries =>
      (entries.find? (fun e => e.in_use && decide (e.name = name))).map
        (fun e => e.inode_sector)

/-- Modelled from the spec: resolving a parent path by walking each
component through successive lookups, requiring every intermediate
component to be a directory (spec section 4.5). -/
def dir_walk (fs : FS) : Nat → List FsName → Option Nat
  | cur, [] => some cur
  | cur, c :: rest =>
    match dir_lookup fs cur c with
    | none => none
    | some s => if inode_is_dir fs s then dir_walk fs s rest else none

/-- Modelled from the spec: `dir_get_parent_dir` of directory.c — resolves
the parent path of `p` from the root (absolute path) or from the caller's
current directory (relative path) by successive component lookups
(spec section 4.5); opening the starting directory fails when its inode
is not a directory. -/
def dir_get_parent_dir (fs : FS) (ctx : Ctx) (p : FsPath) : Option Nat :=
  let start := if path_is_absolute p then ROOT_DIR_SECTOR else ctx.cwd_sector
  if inode_is_dir fs start then dir_walk fs start (parent_comps p) else none

/-- Modelled from the spec: rounding a byte count up to whole sectors
(`bytes_to_sectors` of inode.c). -/
def bytes_to_sectors (size : Nat) : Nat :=
  (size + BLOCK_SECTOR_SIZE - 1) / BLOCK_SECTOR_SIZE

/-- Modelled from the spec: the common part of `inode_create` and
`dir_create` — writes the on-disk inode record at the caller-allocated
home sector and reserves the data sectors for the requested length from
the free map, failing (with the free map unchanged, per the mandatory
rollback of spec section 7) when they cannot be reserved
(spec section 4.3).  The parent-directory sector is set when the inode
is linked by `dir_add`. -/
def inode_create_aux (fs : FS) (sector len : Nat) (d : Bool) : Option FS :=
  match free_map_allocate_n (bytes_to_sectors len) fs.freeMap with
  | none => none
  | some (ds, fm) =>
    some { fs with
           freeMap := fm,
           inodes := alist_set fs.inodes sector
             { length := len, is_dir := d, parent_dir_sector := ROOT_DIR_SECTOR,
               data_sectors := ds, removed := false } }

/-- Modelled from the spec: `inode_create` of inode.c — creates a regular
file's inode record (spec section 4.3). -/
def inode_create (fs : FS) (sector len : Nat) : Option FS :=
  inode_create_aux fs sector len false

/-- Empty (not-in-use) directory entry used when a directory is
initialized. -/
def emptyEntry : DirEntry :=
  { inode_sector := 0, name := [], in_use := false }

/-- Modelled from the spec: `dir_create` of directory.c — creates a
directory inode with `entry_cnt` entries' worth of bytes, all entries
initialized not-in-use (spec sections 4.3 and 4.5: directories are
created with their entry capacity's worth of zeroed bytes). -/
def dir_create (fs : FS) (sector entry_cnt : Nat) : Option FS :=
  match inode_create_aux fs sector (entry_cnt * sizeof_dir_entry) true with
  | none => none
  | some fs' =>
    some { fs' with dirs := alist_set fs'.dirs sector
                      (List.replicate entry_cnt emptyEntry) }

/-- Modelled from the spec: `inode_remove` of inode.c — marks the inode
pending-removal; sectors are deallocated only when the open count later
reaches zero (spec section 4.3), which never happens on the façade's
rollback path because the handle opened there is not closed. -/
def inode_remove (fs : FS) (sector : Nat) : FS :=
  match inode_get fs sector with
  | none => fs
  | some i =>
    { fs with inodes := alist_set fs.inodes sector { i with removed := true } }

/-- Sets the child inode's parent-directory sector when it is linked into
a directory (spec section 3: parent-directory sector stored in the inode
record, enabling `..` resolution). -/
def inode_set_parent (fs : FS) (sector parent : Nat) : FS :=
  match inode_get fs sector with
  | none => fs
  | some i =>
    { fs with inodes := alist_set fs.inodes sector
                          { i with parent_dir_sector := parent } }

/-- Fills the first not-in-use slot with the new entry, or appends it
(spec section 4.4: "reuses the first not-in-use slot if any, else
appends"). -/
def dir_add_entries : List DirEntry → DirEntry → List DirEntry
  | [], new => [new]
  | e :: rest, new =>
    if e.in_use then e :: dir_add_entries rest new else new :: rest

/-- Modelled from the spec: `dir_add` of directory.c — fails (leaving the
directory unchanged) if the name is empty, exceeds the maximum name
length, or is already present in-use; otherwise writes the entry into the
first free slot or appends it, and records the parent-directory sector in
the child's inode (spec section 4.4). -/
def dir_add (fs : FS) (dirSector : Nat) (name : FsName) (childSector : Nat) :
    Bool × FS :=
  match dir_content fs dirSector with
  | none => (false, fs)
  | some entries =>
    if name = [] || decide (NAME_MAX < name.length)
        || entries.any (fun e => e.in_use && decide (e.name = name)) then
      (false, fs)
    else
      let newEntries := dir_add_entries entries
        { inode_sector := childSector, name := name, in_use := true }
      let fs' := { fs with dirs := alist_set fs.dirs dirSector newEntries }
      (true, inode_set_parent fs' childSector dirSector)

/-- Marks the first in-use entry with the given name not-in-use and
returns the updated entry list together with the entry's inode sector. -/
def dir_remove_entries : List DirEntry → FsName → Option (List DirEntry × Nat)
  | [], _ => none
  | e :: rest, name =>
    if e.in_use && decide (e.name = name) then
      some ({ e with in_use := false } :: rest, e.inode_sector)
    else
      match dir_remove_entries rest name with
      | none => none
      | some (rest', s) => some (e :: rest', s)

/-- Modelled from the spec: `dir_remove` of directory.c — fails if no
in-use entry carries the name; otherwise marks the entry not-in-use
(tombstone) and marks the target inode pending-removal
(spec section 4.4). -/
def dir_remove (fs : FS) (dirSector : Nat) (name : FsName) : Bool × FS :=
  match dir_content fs dirSector with
  | none => (false, fs)
  | some entries =>
    match dir_remove_entries entries name with
    | none => (false, fs)
    | some (entries', s) =>
      (true, inode_remove { fs with dirs := alist_set fs.dirs dirSector entries' } s)

/-- Modelled from the spec: `dir_is_empty` of directory.c — true iff the
directory has no in-use entries (spec section 4.4; `.` and `..` are not
stored as entries). -/
def dir_is_empty (fs : FS) (dirSector : Nat) : Bool :=
  ((dir_content fs dirSector).getD []).all (fun e => !e.in_use)

/-- Embedded from src/project4/src/filesys/filesys.c lines 56-113:
`filesys_open`.  An empty path fails; the special path `.` scans the
current directory's parent for the in-use entry whose inode sector equals
the current directory's sector and recursively re-invokes open on that
entry's name; otherwise the parent directory is resolved, an empty leaf
returns a handle on the parent directory's own inode, and a non-empty
leaf is looked up in the parent.  A handle is modelled by the opened
inode's sector; `fuel` bounds the C code's recursion (the C recursion is
not structurally bounded). -/
def filesys_open (fuel : Nat) (fs : FS) (ctx : Ctx) (name : FsPath) : Option Nat :=
  match fuel with
  | 0 => none
  | fuel + 1 =>
    if name = [] then none
    else if name = ['.'] then
      match inode_get fs ctx.cwd_sector with
      | none => none
      | some curr =>
        match dir_content fs curr.parent_dir_sector with
        | none => none
        | some entries =>
          match entries.find?
              (fun e => decide (e.inode_sector = ctx.cwd_sector) && e.in_use) with
          | some e => filesys_open fuel fs ctx e.name
          | none => none
    else
      match dir_get_parent_dir fs ctx name with
      | none => none
      | some pd =>
        match dir_get_leaf_name name with
        | (ok, leaf) =>
          if ok = false && leaf = [] then some pd
          else
            match dir_lookup fs pd leaf with
            | none => none
            | some s => some s

/-- Embedded from src/project4/src/filesys/filesys.c lines 119-153:
`filesys_remove`.  Extracts the leaf name, resolves the parent directory,
looks the leaf up; a regular file is removed via `dir_remove`, a
directory is removed only when `dir_is_empty` holds. -/
def filesys_remove (fs : FS) (ctx : Ctx) (name : FsPath) : Bool × FS :=
  match dir_get_leaf_name name with
  | (false, _) => (false, fs)
  | (true, leaf) =>
    match dir_get_parent_dir fs ctx name with
    | none => (false, fs)
    | some pd =>
      match dir_lookup fs pd leaf with
      | none => (false, fs)
      | some s =>
        if inode_is_dir fs s = false then dir_remove fs pd leaf
        else if dir_is_empty fs s then dir_remove fs pd leaf
        else (false, fs)

/-- Embedded from src/project4/src/filesys/filesys.c lines 189-222: the
part of `_filesys_create` that runs after the current-directory liveness
check — leaf extraction, parent resolution, sector allocation, content
initialization (`dir_create` for directories with one sector's worth of
entries, `inode_create` for files), and linking via `dir_add`; on a
failed content initialization the allocated sector is released, and on a
failed link the new inode is marked removed and the allocated sector is
released. -/
def _filesys_create_body (fs : FS) (ctx : Ctx) (full_path : FsPath)
    (initial_size : Nat) (is_dir : Bool) : Bool × FS :=
  match dir_get_leaf_name full_path with
  | (false, _) => (false, fs)
  | (true, leaf) =>
    match dir_get_parent_dir fs ctx full_path with
    | none => (false, fs)
    | some pd =>
      match free_map_allocate_one fs.freeMap with
      | none => (false, fs)
      | some (inode_sector, fm1) =>
        let fs1 : FS := { fs with freeMap := fm1 }
        let created : Option FS :=
          if is_dir then
            dir_create fs1 inode_sector (BLOCK_SECTOR_SIZE / sizeof_dir_entry)
          else
            inode_create fs1 inode_sector initial_size
        match created with
        | none =>
          (false, { fs1 with freeMap := free_map_release inode_sector 1 fs1.freeMap })
        | some fs2 =>
          match dir_add fs2 pd leaf inode_sector with
          | (false, fs3) =>
            let fs4 := inode_remove fs3 inode_sector
            (false, { fs4 with freeMap := free_map_release inode_sector 1 fs4.freeMap })
          | (true, fs3) => (true, fs3)

/-- Embedded from src/project4/src/filesys/filesys.c lines 159-222:
`_filesys_create`.  Unless the caller's current directory is the root, it
first checks that the current directory still has an in-use entry (with
matching inode sector) under its own parent, returning false when none
survives; then it runs the create body.  (The C code asserts that the
parent directory opens; a missing record is modelled as the check
failing.) -/
def _filesys_create (fs : FS) (ctx : Ctx) (full_path : FsPath)
    (initial_size : Nat) (is_dir : Bool) : Bool × FS :=
  let found : Bool :=
    if ctx.cwd_sector = ROOT_DIR_SECTOR then true
    else
      match inode_get fs ctx.cwd_sector with
      | none => false
      | some curr =>
        match dir_content fs curr.parent_dir_sector with
        | none => false
        | some entries =>
          entries.any (fun e => decide (e.inode_sector = ctx.cwd_sector) && e.in_use)
  if found = false then (false, fs)
  else _filesys_create_body fs ctx full_path initial_size is_dir

/-- Embedded from src/project4/src/filesys/filesys.c lines 224-227:
`filesys_create`. -/
def filesys_create (fs : FS) (ctx : Ctx) (full_path : FsPath)
    (initial_size : Nat) : Bool × FS :=
  _filesys_create fs ctx full_path initial_size false

/-- Embedded from src/project4/src/filesys/filesys.c lines 229-232:
`filesys_mkdir`. -/
def filesys_mkdir (fs : FS) (ctx : Ctx) (full_path : FsPath) : Bool × FS :=
  _filesys_create fs ctx full_path 0 true

/-- Embedded from src/project4/src/filesys/filesys.c lines 234-252:
`filesys_chdir`.  Extracts the leaf, resolves the parent, looks the leaf
up, requires it to be a directory, and updates the calling context's
current-directory sector to the resolved inode's inumber. -/
def filesys_chdir (fs : FS) (ctx : Ctx) (full_path : FsPath) : Bool × Ctx :=
  match dir_get_leaf_name full_path with
  | (false, _) => (false, ctx)
  | (true, leaf) =>
    match dir_get_parent_dir fs ctx full_path with
    | none => (false, ctx)
    | some pd =>
      match dir_lookup fs pd leaf with
      | none => (false, ctx)
      | some s =>
        if inode_is_dir fs s = false then (false, ctx)
        else (true, { cwd_sector := s })

/-- An open file handle of the file-descriptor table: the opened inode's
sector and the current position, counted in directory entries (the C
code stores a byte offset that is always a multiple of
`sizeof (struct dir_entry)` when used through `filesys_readdir`). -/
structure FileHandle where
  inode_sector : Nat
  pos : Nat
deriving DecidableEq

/-- The per-process open-file table consulted by `file_find`. -/
abbrev FileTable := List (Nat × FileHandle)

/-- Modelled from the spec: `file_find` of file.c — maps a file
descriptor to its open file handle, if any. -/
def file_find (ft : FileTable) (fd : Nat) : Option FileHandle :=
  alist_get ft fd

/-- Embedded from src/project4/src/filesys/filesys.c lines 254-262:
`filesys_isdir`.  A descriptor with no open file yields false. -/
def filesys_isdir (fs : FS) (ft : FileTable) (fd : Nat) : Bool :=
  match file_find ft fd with
  | none => false
  | some f => inode_is_dir fs f.inode_sector

/-- Embedded from src/project4/src/filesys/filesys.c lines 264-272:
`filesys_inumber`.  A descriptor with no open file yields `false`, which
as a C `int` return value is 0. -/
def filesys_inumber (_fs : FS) (ft : FileTable) (fd : Nat) : Int :=
  match file_find ft fd with
  | none => 0
  | some f => (f.inode_sector : Int)

/-- Modelled from the spec: the scan loop of `dir_readdir` of directory.c
— advances the position over the remaining entries until an in-use entry
is found, returning its name and the advanced position; tombstones are
skipped and the position ends past the returned entry (spec section
4.4). -/
def dir_readdir_scan : List DirEntry → Nat → Option FsName × Nat
  | [], pos => (none, pos)
  | e :: rest, pos =>
    if e.in_use then (some e.name, pos + 1) else dir_readdir_scan rest (pos + 1)

/-- Embedded from src/project4/src/filesys/filesys.c lines 287-301:
`filesys_readdir`.  Fails when the descriptor has no open file or the
file's inode is not a directory; otherwise runs `dir_readdir` from the
handle's saved position and stores the advanced position back into the
handle. -/
def filesys_readdir (fs : FS) (ft : FileTable) (fd : Nat) :
    Option FsName × FileTable :=
  match file_find ft fd with
  | none => (none, ft)
  | some f =>
    if inode_is_dir fs f.inode_sector = false then (none, ft)
    else
      match dir_content fs f.inode_sector with
      | none => (none, ft)
      | some entries =>
        match dir_readdir_scan (entries.drop f.pos) f.pos with
        | (some name, pos') => (some name, alist_set ft fd { f with pos := pos' })
        | (none, pos') => (none, alist_set ft fd { f with pos := pos' })

/-- Modelled from the spec: `free_map_create` of free-map.c — initializes
the bitmap all-free except the reserved sectors: the free map's own
sector and the root directory's sector (spec sections 3 and 4.1). -/
def free_map_create (n : Nat) : List Bool :=
  ((List.replicate n true).set FREE_MAP_SECTOR false).set ROOT_DIR_SECTOR false

/-- Embedded from src/project4/src/filesys/filesys.c lines 276-285:
`do_format`.  Creates the free map and the root directory at
`ROOT_DIR_SECTOR` with `BLOCK_SECTOR_SIZE` as the entry count passed to
`dir_create`; a failed root creation panics, modelled as `none`.
The device holds `n` sectors. -/
def do_format (n : Nat) : Option FS :=
  let fs0 : FS := { freeMap := free_map_create n, inodes := [], dirs := [] }
  dir_create fs0 ROOT_DIR_SECTOR BLOCK_SECTOR_SIZE

/-- Consistency of the sector bookkeeping (spec section 3: every sector
referenced by a live inode or directory is marked in-use in the free
map), restricted to the home sectors the façade's claims need. -/
def FS.wf (fs : FS) : Bool :=
  fs.inodes.all (fun kv => fs.freeMap[kv.1]? = some false)
    && fs.dirs.all (fun kv => fs.freeMap[kv.1]? = some false)

/-- Claim C10: for a file descriptor that does not map to an open file,
`filesys_isdir` returns false and `filesys_inumber` returns 0 (the
integer value of C `false`) rather than signaling an error, so a caller
cannot distinguish an invalid descriptor from a regular file (isdir) or
from an inode whose inumber is 0 (inumber). -/
theorem filesys_isdir_inumber_invalid_fd (fs : FS) (ft : FileTable) (fd : Nat)
    (h : file_find ft fd = none) :
    filesys_isdir fs ft fd = false
  ∧ filesys_inumber fs ft fd = 0
  ∧ (∃ fs' ft' fd' f, file_find ft' fd' = some f
      ∧ inode_is_dir fs' f.inode_sector = false
      ∧ filesys_isdir fs' ft' fd' = false)
  ∧ (∃ fs' ft' fd' f, file_find ft' fd' = some f
      ∧ filesys_inumber fs' ft' fd' = 0) := by
  refine ⟨?_, ?_, ?_, ?_⟩
  · simp [filesys_isdir, h]
  · simp [filesys_inumber, h]
  · exact ⟨⟨[], [], []⟩, [(0, ⟨2, 0⟩)], 0, ⟨2, 0⟩, by decide, by decide, by decide⟩
  · exact ⟨⟨[], [], []⟩, [(0, ⟨0, 0⟩)], 0, ⟨0, 0⟩, by decide, by decide⟩

/-- Witness for C10 with an empty open-file table and descriptor 0. -/
theorem filesys_isdir_inumber_invalid_fd_witness :
    filesys_isdir ⟨[], [], []⟩ [] 0 = false ∧ filesys_inumber ⟨[], [], []⟩ [] 0 = 0 :=
  ⟨(filesys_isdir_inumber_invalid_fd ⟨[], [], []⟩ [] 0 (by decide)).1,
   (filesys_isdir_inumber_invalid_fd ⟨[], [], []⟩ [] 0 (by decide)).2.1⟩

/-- Claim C6: `filesys_chdir` succeeds iff the leaf extracts, the parent
resolves, the leaf looks up in the parent, and the resolved inode's
is-directory flag is set; on success the context's current-directory
sector becomes that inode's inumber, and on failure the context is
returned unchanged. -/
theorem filesys_chdir_correct (fs : FS) (ctx : Ctx) (p : FsPath) :
    ((filesys_chdir fs ctx p).1 = true ↔
      ∃ pd s, (dir_get_leaf_name p).1 = true
        ∧ dir_get_parent_dir fs ctx p = some pd
        ∧ dir_lookup fs pd (dir_get_leaf_name p).2 = some s
        ∧ inode_is_dir fs s = true)
  ∧ ((filesys_chdir fs ctx p).1 = false → (filesys_chdir fs ctx p).2 = ctx)
  ∧ (∀ pd s, (dir_get_leaf_name p).1 = true →
      dir_get_parent_dir fs ctx p = some pd →
      dir_lookup fs pd (dir_get_leaf_name p).2 = some s →
      inode_is_dir fs s = true →
      (filesys_chdir fs ctx p).2 = { cwd_sector := s }) := by
  rcases hleaf : dir_get_leaf_name p with ⟨ok, leaf⟩
  cases ok with
  | false => simp [filesys_chdir, hleaf]
  | true =>
    cases hpd : dir_get_parent_dir fs ctx p with
    | none => simp [filesys_chdir, hleaf, hpd]
    | some pd =>
      cases hlk : dir_lookup fs pd leaf with
      | none =>
        refine ⟨?_, ?_, ?_⟩
        · simp [filesys_chdir, hleaf, hpd, hlk]
        · simp [filesys_chdir, hleaf, hpd, hlk]
        · intro pd' s' _ hpd' hlk' _
          injection hpd' with h1
          subst h1
          have hlk'' : dir_lookup fs pd leaf = some s' := by simpa [hleaf] using hlk'
          rw [hlk] at hlk''
          simp at hlk''
      | some s =>
        cases hdir : inode_is_dir fs s with
        | false =>
          refine ⟨?_, ?_, ?_⟩
          · simp [filesys_chdir, hleaf, hpd, hlk, hdir]
          · simp [filesys_chdir, hleaf, hpd, hlk, hdir]
          · intro pd' s' _ hpd' hlk' hdir'
            injection hpd' with h1
            subst h1
            have hlk'' : dir_lookup fs pd leaf = some s' := by simpa [hleaf] using hlk'
            rw [hlk] at hlk''
            injection hlk'' with h2
            subst h2
            rw [hdir] at hdir'
            cases hdir'
        | true =>
          refine ⟨?_, ?_, ?_⟩
          · simp [filesys_chdir, hleaf, hpd, hlk, hdir]
          · simp [filesys_chdir, hleaf, hpd, hlk, hdir]
          · intro pd' s' _ hpd' hlk' _
            injection hpd' with h1
            subst h1
            have hlk'' : dir_lookup fs pd leaf = some s' := by simpa [hleaf] using hlk'
            rw [hlk] at hlk''
            injection hlk'' with h2
            subst h2
            simp [filesys_chdir, hleaf, hpd, hlk, hdir]

/-- Concrete state for the C6 witness: a root directory holding the
subdirectory `a` at sector 2. -/
def fsChdir : FS :=
  { freeMap := [false, false, false],
    inodes := [(1, ⟨0, true, 1, [], false⟩), (2, ⟨0, true, 1, [], false⟩)],
    dirs := [(1, [⟨2, ['a'], true⟩]), (2, [])] }

/-- Witness for C6: `chdir "a"` from the root updates the context to
sector 2. -/
theorem filesys_chdir_correct_witness :
    (filesys_chdir fsChdir { cwd_sector := 1 } ['a']).2 = { cwd_sector := 2 } :=
  (filesys_chdir_correct fsChdir { cwd_sector := 1 } ['a']).2.2 1 2
    (by decide) (by decide) (by decide) (by decide)

/-- Claim C7: a non-empty path whose leaf is empty after stripping
trailing separators (`dir_get_leaf_name` fails with an empty name
written) and whose parent resolves is opened as the parent directory's
own inode. -/
theorem filesys_open_empty_leaf_parent (fuel : Nat) (fs : FS) (ctx : Ctx)
    (name : FsPath) (pd : Nat)
    (hne : name ≠ [])
    (hleaf : dir_get_leaf_name name = (false, []))
    (hpd : dir_get_parent_dir fs ctx name = some pd) :
    filesys_open (fuel + 1) fs ctx name = some pd := by
  have hdot : name ≠ ['.'] := by
    intro hd
    subst hd
    revert hleaf
    decide
  simp [filesys_open, hne, hdot, hpd, hleaf]

/-- Concrete state for the C7 witness: a root directory holding the
subdirectory `d` at sector 2. -/
def fsSlash : FS :=
  { freeMap := [false, false, false],
    inodes := [(1, ⟨0, true, 1, [], false⟩), (2, ⟨0, true, 1, [], false⟩)],
    dirs := [(1, [⟨2, ['d'], true⟩]), (2, [])] }

/-- Witness for C7: opening the path `d/` returns the directory `d`
itself (sector 2). -/
theorem filesys_open_empty_leaf_parent_witness :
    filesys_open 1 fsSlash { cwd_sector := 1 } ['d', '/'] = some 2 :=
  filesys_open_empty_leaf_parent 0 fsSlash { cwd_sector := 1 } ['d', '/'] 2
    (by decide) (by decide) (by decide)

/-- Claim C4: when the caller's current directory is not the root,
`_filesys_create` (run by both `filesys_create` and `filesys_mkdir`)
first checks that the current directory still has an in-use entry with
its inode sector under its own parent, and returns false with the state
untouched when no such entry exists; when the current directory is the
root the check is skipped and the create body runs. -/
theorem filesys_create_cwd_check (fs : FS) (ctx : Ctx) (p : FsPath)
    (sz : Nat) (d : Bool) :
    (∀ curr entries,
        ctx.cwd_sector ≠ ROOT_DIR_SECTOR →
        inode_get fs ctx.cwd_sector = some curr →
        dir_content fs curr.parent_dir_sector = some entries →
        entries.any (fun e => decide (e.inode_sector = ctx.cwd_sector) && e.in_use)
          = false →
        _filesys_create fs ctx p sz d = (false, fs))
  ∧ (ctx.cwd_sector = ROOT_DIR_SECTOR →
        _filesys_create fs ctx p sz d = _filesys_create_body fs ctx p sz d) := by
  constructor
  · intro curr entries hroot hcur hpar hany
    simp [_filesys_create, hroot, hcur, hpar, hany]
  · intro hroot
    simp [_filesys_create, hroot]

/-- Concrete state for the C4 witness: the context's current directory
(sector 2) has no surviving entry under its parent (the root, whose
entry list is empty). -/
def fsStale : FS :=
  { freeMap := [false, false, false],
    inodes := [(1, ⟨0, true, 1, [], false⟩), (2, ⟨0, true, 1, [], false⟩)],
    dirs := [(1, []), (2, [])] }

/-- Witness for C4: creating from the unlinked directory fails and
leaves the state unchanged. -/
theorem filesys_create_cwd_check_witness :
    _filesys_create fsStale { cwd_sector := 2 } ['x'] 0 false = (false, fsStale) :=
  (filesys_create_cwd_check fsStale { cwd_sector := 2 } ['x'] 0 false).1
    ⟨0, true, 1, [], false⟩ [] (by decide) (by decide) (by decide) (by decide)

theorem dir_remove_entries_of_find (name : FsName) :
    ∀ (entries : List DirEntry) (e : DirEntry),
      entries.find? (fun e => e.in_use && decide (e.name = name)) = some e →
      ∃ r, dir_remove_entries entries name = some r := by
  intro entries
  induction entries with
  | nil => intro e h; simp at h
  | cons e0 rest ih =>
    intro e h
    by_cases hp : (e0.in_use && decide (e0.name = name)) = true
    · refine ⟨({ e0 with in_use := false } :: rest, e0.inode_sector), ?_⟩
      simp [dir_remove_entries, hp]
    · rw [List.find?_cons_of_neg _ (by simpa using hp)] at h
      obtain ⟨r, hr⟩ := ih e h
      exact ⟨(e0 :: r.1, r.2), by simp [dir_remove_entries, hp, hr]⟩

theorem dir_remove_of_lookup (fs : FS) (pd : Nat) (leaf : FsName) (s : Nat)
    (h1 : leaf ≠ ['.']) (h2 : leaf ≠ ['.', '.'])
    (hlk : dir_lookup fs pd leaf = some s) :
    (dir_remove fs pd leaf).1 = true := by
  unfold dir_lookup at hlk
  rw [if_neg h1, if_neg h2] at hlk
  cases hc : dir_content fs pd with
  | none => rw [hc] at hlk; cases hlk
  | some entries =>
    rw [hc] at hlk
    obtain ⟨e, he, _⟩ := Option.map_eq_some'.mp hlk
    obtain ⟨r, hr⟩ := dir_remove_entries_of_find leaf entries e he
    simp [dir_remove, hc, hr]

/-- Concrete state for the C2 counterexample: the root holds the empty
directory `a` at sector 2. -/
def fsDotRm : FS :=
  { freeMap := [false, false, false],
    inodes := [(1, ⟨0, true, 1, [], false⟩), (2, ⟨0, true, 1, [], false⟩)],
    dirs := [(1, [⟨2, ['a'], true⟩]), (2, [])] }

/-- Claim C2 (counterexample): for the path `a/.` the leaf resolves via
lookup in its parent `a` to `a`'s own inode (the special name `.` is
resolved without a scan), that inode is a directory and it is empty —
yet `filesys_remove` returns false, because `dir_remove` scans `a`'s
entries for one named `.` and no such entry is stored; this contradicts
the claimed "succeeds if and only if the directory is empty". -/
theorem filesys_remove_dot_counterexample :
    dir_get_leaf_name ['a', '/', '.'] = (true, ['.'])
  ∧ dir_get_parent_dir fsDotRm { cwd_sector := 1 } ['a', '/', '.'] = some 2
  ∧ dir_lookup fsDotRm 2 ['.'] = some 2
  ∧ inode_is_dir fsDotRm 2 = true
  ∧ dir_is_empty fsDotRm 2 = true
  ∧ (filesys_remove fsDotRm { cwd_sector := 1 } ['a', '/', '.']).1 = false := by
  decide

/-- Claim C2 (amended): when the leaf of a path is an ordinary entry
name (not the scan-free special names `.` and `..`) and resolves in its
parent directory, `filesys_remove` succeeds unconditionally for a
regular file, and for a directory succeeds exactly when the directory is
empty (so a non-empty directory cannot be removed, and once emptied its
removal succeeds). -/
theorem filesys_remove_correct (fs : FS) (ctx : Ctx) (p : FsPath)
    (leaf : FsName) (pd s : Nat)
    (hleaf : dir_get_leaf_name p = (true, leaf))
    (h1 : leaf ≠ ['.']) (h2 : leaf ≠ ['.', '.'])
    (hpd : dir_get_parent_dir fs ctx p = some pd)
    (hlk : dir_lookup fs pd leaf = some s) :
    (inode_is_dir fs s = false → (filesys_remove fs ctx p).1 = true)
  ∧ (inode_is_dir fs s = true →
      ((filesys_remove fs ctx p).1 = true ↔ dir_is_empty fs s = true)) := by
  have hrem : (dir_remove fs pd leaf).1 = true :=
    dir_remove_of_lookup fs pd leaf s h1 h2 hlk
  constructor
  · intro hd
    simpa [filesys_remove, hleaf, hpd, hlk, hd] using hrem
  · intro hd
    cases he : dir_is_empty fs s with
    | true => simpa [filesys_remove, hleaf, hpd, hlk, hd, he] using hrem
    | false => simp [filesys_remove, hleaf, hpd, hlk, hd, he]

/-- Concrete state for the C2 witness: a root directory holding the
regular file `f` at sector 2. -/
def fsRm : FS :=
  { freeMap := [false, false, false],
    inodes := [(1, ⟨0, true, 1, [], false⟩), (2, ⟨0, false, 1, [], false⟩)],
    dirs := [(1, [⟨2, ['f'], true⟩])] }

/-- Witness for C2: removing the regular file `f` succeeds. -/
theorem filesys_remove_correct_witness :
    (filesys_remove fsRm { cwd_sector := 1 } ['f']).1 = true :=
  (filesys_remove_correct fsRm { cwd_sector := 1 } ['f'] ['f'] 1 2
    (by decide) (by decide) (by decide) (by decide) (by decide)).1 (by decide)

/-- Concrete state for C3: root (sector 1) holds directory `a`
(sector 2), which holds directory `b` (sector 3), which is empty. -/
def fsDot : FS :=
  { freeMap := [false, false, false, false, true, true],
    inodes := [(1, ⟨0, true, 1, [], false⟩), (2, ⟨0, true, 1, [], false⟩),
               (3, ⟨0, true, 2, [], false⟩)],
    dirs := [(1, [⟨2, ['a'], true⟩]), (2, [⟨3, ['b'], true⟩]), (3, [])] }

/-- Claim C3 (divergence): after a successful `chdir "a/b"` (current
directory sector 3), `filesys_open "."` returns no handle — the scan of
the parent does find the entry `b`, but the recursive `filesys_open "b"`
resolves `b` relative to the current directory `a/b` itself (looking `b`
up inside `a/b`) instead of inside `a` — while opening the directory by
full path `"/a/b"` returns sector 3; so the two differ, contradicting
the claimed self-resolution. -/
theorem filesys_open_dot_divergence :
    filesys_chdir fsDot { cwd_sector := ROOT_DIR_SECTOR } ['a', '/', 'b']
      = (true, { cwd_sector := 3 })
  ∧ filesys_open 10 fsDot { cwd_sector := 3 } ['.'] = none
  ∧ filesys_open 10 fsDot { cwd_sector := 3 } ['/', 'a', '/', 'b'] = some 3
  ∧ filesys_open 10 fsDot { cwd_sector := 3 } ['.']
      ≠ filesys_open 10 fsDot { cwd_sector := 3 } ['/', 'a', '/', 'b'] := by
  decide

theorem dir_create_content (fs : FS) (sector cnt : Nat) (fs' : FS)
    (h : dir_create fs sector cnt = some fs') :
    dir_content fs' sector = some (List.replicate cnt emptyEntry) := by
  unfold dir_create at h
  cases hic : inode_create_aux fs sector (cnt * sizeof_dir_entry) true with
  | none => rw [hic] at h; cases h
  | some fsa =>
    rw [hic] at h
    injection h with h
    subst h
    simp [dir_content, alist_get_set_self]

/-- Concrete state for C5: a root directory with five (all free) entry
slots and plenty of free sectors, on which `filesys_mkdir` is run. -/
def fsMk : FS :=
  { freeMap := [false, false, true, true, true, true, true, true, true, true],
    inodes := [(1, ⟨0, true, 1, [], false⟩)],
    dirs := [(1, List.replicate 5 emptyEntry)] }

set_option maxRecDepth 100000 in
/-- Claim C5 (counterexample): formatting a 30-sector device creates the
root directory with 512 entries — not `BLOCK_SECTOR_SIZE /
sizeof_dir_entry` entries as the per-sector capacity used by mkdir. -/
theorem do_format_capacity_counterexample :
    (do_format 30).isSome = true
  ∧ ((dir_content ((do_format 30).getD fsMk) ROOT_DIR_SECTOR).getD []).length
      ≠ BLOCK_SECTOR_SIZE / sizeof_dir_entry := by
  decide

set_option maxRecDepth 100000 in
/-- Claim C5 (amended): at format time the root directory is created
with capacity for `BLOCK_SECTOR_SIZE` entries (the raw sector size is
passed to `dir_create` as the entry count, spanning several sectors of
content), whereas `filesys_mkdir` creates directories with
`BLOCK_SECTOR_SIZE / sizeof_dir_entry` entries — one sector's worth; the
two capacities differ. -/
theorem do_format_capacity_amended :
    (∀ n fs, do_format n = some fs →
        ((dir_content fs ROOT_DIR_SECTOR).getD []).length = BLOCK_SECTOR_SIZE)
  ∧ ((filesys_mkdir fsMk { cwd_sector := 1 } ['d']).1 = true
      ∧ ((dir_content (filesys_mkdir fsMk { cwd_sector := 1 } ['d']).2 2).getD
            []).length = BLOCK_SECTOR_SIZE / sizeof_dir_entry) := by
  constructor
  · intro n fs h
    simp only [do_format] at h
    rw [dir_create_content _ _ _ _ h]
    simp
  · constructor <;> decide

set_option maxRecDepth 100000 in
/-- Witness for C5's amended theorem on the 30-sector format. -/
theorem do_format_capacity_amended_witness :
    ((dir_content ((do_format 30).getD fsMk) ROOT_DIR_SECTOR).getD []).length
      = BLOCK_SECTOR_SIZE :=
  do_format_capacity_amended.1 30 ((do_format 30).getD fsMk) (by decide)

theorem dir_readdir_scan_some (l : List DirEntry) :
    ∀ (pos pos' : Nat) (name : FsName),
      dir_readdir_scan l pos = (some name, pos') →
      ∃ k e, l[k]? = some e ∧ e.in_use = true ∧ e.name = name
        ∧ (∀ j e', j < k → l[j]? = some e' → e'.in_use = false)
        ∧ pos' = pos + k + 1 := by
  induction l with
  | nil => intro pos pos' name h; simp [dir_readdir_scan] at h
  | cons e0 rest ih =>
    intro pos pos' name h
    cases hu : e0.in_use with
    | true =>
      simp [dir_readdir_scan, hu] at h
      obtain ⟨hname, hpos⟩ := h
      refine ⟨0, e0, by simp, hu, hname, ?_, by omega⟩
      intro j e' hj _
      exact absurd hj (Nat.not_lt_zero j)
    | false =>
      simp only [dir_readdir_scan, hu, Bool.false_eq_true, if_false] at h
      obtain ⟨k, e, hk, hu', hn, hprev, hpos⟩ := ih (pos + 1) pos' name h
      refine ⟨k + 1, e, by simpa using hk, hu', hn, ?_, by omega⟩
      intro j e' hj hje
      cases j with
      | zero =>
        simp at hje
        rw [← hje]
        exact hu
      | succ j' =>
        exact hprev j' e' (by omega) (by simpa using hje)

/-- Claim C8: `filesys_readdir` yields no name when the descriptor maps
to no open file or to a non-directory inode (leaving the table alone);
on success it returns the first in-use entry at or after the handle's
position and stores position one-past that entry back into the handle,
so successive calls enumerate successive in-use entries. -/
theorem filesys_readdir_correct (fs : FS) (ft : FileTable) (fd : Nat) :
    (file_find ft fd = none → filesys_readdir fs ft fd = (none, ft))
  ∧ (∀ f, file_find ft fd = some f → inode_is_dir fs f.inode_sector = false →
      filesys_readdir fs ft fd = (none, ft))
  ∧ (∀ f entries name ft',
      file_find ft fd = some f →
      dir_content fs f.inode_sector = some entries →
      filesys_readdir fs ft fd = (some name, ft') →
      ∃ k e, (entries.drop f.pos)[k]? = some e ∧ e.in_use = true ∧ e.name = name
        ∧ (∀ j e', j < k → (entries.drop f.pos)[j]? = some e' → e'.in_use = false)
        ∧ file_find ft' fd = some { f with pos := f.pos + k + 1 }) := by
  refine ⟨?_, ?_, ?_⟩
  · intro h
    simp [filesys_readdir, h]
  · intro f hf hd
    simp [filesys_readdir, hf, hd]
  · intro f entries name ft' hf hc hr
    cases hd : inode_is_dir fs f.inode_sector with
    | false =>
      rw [show filesys_readdir fs ft fd = (none, ft) by
            simp [filesys_readdir, hf, hd]] at hr
      cases hr
    | true =>
      rcases hs : dir_readdir_scan (entries.drop f.pos) f.pos with ⟨o, pos'⟩
      cases o with
      | none =>
        rw [show filesys_readdir fs ft fd
              = (none, alist_set ft fd { f with pos := pos' }) by
            simp [filesys_readdir, hf, hd, hc, hs]] at hr
        cases hr
      | some nm =>
        rw [show filesys_readdir fs ft fd
              = (some nm, alist_set ft fd { f with pos := pos' }) by
            simp [filesys_readdir, hf, hd, hc, hs]] at hr
        injection hr with hr1 hr2
        injection hr1 with hr1
        subst hr1
        subst hr2
        obtain ⟨k, e, hk, hu, hn, hprev, hpos⟩ :=
          dir_readdir_scan_some (entries.drop f.pos) f.pos pos' _ hs
        subst hpos
        exact ⟨k, e, hk, hu, hn, hprev, by
          simpa [file_find] using alist_get_set_self ft fd { f with pos := f.pos + k + 1 }⟩

/-- Concrete state for the C8 witness: descriptor 7 is a handle at
position 0 on the root directory, whose only entry is the in-use file
`a` at sector 2. -/
def fsRd : FS :=
  { freeMap := [false, false, false],
    inodes := [(1, ⟨0, true, 1, [], false⟩), (2, ⟨0, false, 1, [], false⟩)],
    dirs := [(1, [⟨2, ['a'], true⟩])] }

/-- Open-file table for the C8 witness. -/
def ftRd : FileTable := [(7, ⟨1, 0⟩)]

/-- Witness for C8: reading descriptor 7 yields the entry `a` and
advances the stored position past it. -/
theorem filesys_readdir_correct_witness :
    ∃ k e, (([⟨2, ['a'], true⟩] : List DirEntry).drop 0)[k]? = some e
      ∧ e.in_use = true ∧ e.name = ['a']
      ∧ (∀ j e', j < k → (([⟨2, ['a'], true⟩] : List DirEntry).drop 0)[j]?
            = some e' → e'.in_use = false)
      ∧ file_find [(7, ⟨1, 1⟩)] 7
          = some { inode_sector := 1, pos := 0 + k + 1 } :=
  (filesys_readdir_correct fsRd ftRd 7).2.2 ⟨1, 0⟩ [⟨2, ['a'], true⟩] ['a']
    [(7, ⟨1, 1⟩)] (by decide) (by decide) (by decide)

theorem free_map_allocate_n_length : ∀ (n : Nat) (m : List Bool)
    (ss : List Nat) (m' : List Bool),
    free_map_allocate_n n m = some (ss, m') → m'.length = m.length := by
  intro n
  induction n with
  | zero =>
    intro m ss m' h
    simp only [free_map_allocate_n] at h
    injection h with hpair
    injection hpair with hss hm
    rw [← hm]
  | succ k ih =>
    intro m ss m' h
    simp only [free_map_allocate_n] at h
    cases h1 : free_map_allocate_one m with
    | none => rw [h1] at h; cases h
    | some q =>
      rcases q with ⟨s, m1⟩
      simp only [h1] at h
      cases h2 : free_map_allocate_n k m1 with
      | none => rw [h2] at h; cases h
      | some q2 =>
        rcases q2 with ⟨ss2, m2⟩
        rw [h2] at h
        injection h with hpair
        injection hpair with hss hm
        obtain ⟨hget, hm1⟩ := free_map_allocate_one_some m s m1 h1
        rw [← hm, ih m1 ss2 m2 h2, hm1]
        simp

theorem inode_create_aux_parts (fs : FS) (sector len : Nat) (d : Bool) (fs2 : FS)
    (h : inode_create_aux fs sector len d = some fs2) :
    fs2.freeMap.length = fs.freeMap.length ∧ fs2.dirs = fs.dirs := by
  unfold inode_create_aux at h
  cases ha : free_map_allocate_n (bytes_to_sectors len) fs.freeMap with
  | none => rw [ha] at h; cases h
  | some q =>
    rcases q with ⟨ds, fm⟩
    rw [ha] at h
    injection h with h
    subst h
    exact ⟨free_map_allocate_n_length _ _ _ _ ha, rfl⟩

theorem dir_create_parts (fs : FS) (sector cnt : Nat) (fs2 : FS)
    (h : dir_create fs sector cnt = some fs2) :
    fs2.freeMap.length = fs.freeMap.length
  ∧ (∀ pd, pd ≠ sector → dir_content fs2 pd = dir_content fs pd) := by
  unfold dir_create at h
  cases hic : inode_create_aux fs sector (cnt * sizeof_dir_entry) true with
  | none => rw [hic] at h; cases h
  | some fsa =>
    rw [hic] at h
    injection h with h
    subst h
    obtain ⟨hlen, hdirs⟩ := inode_create_aux_parts fs sector _ true fsa hic
    constructor
    · simpa using hlen
    · intro pd hpd
      change alist_get (alist_set fsa.dirs sector (List.replicate cnt emptyEntry)) pd = alist_get fs.dirs pd
      rw [alist_get_set_ne _ _ _ _ hpd, hdirs]

theorem dir_add_fail_eq (fs : FS) (dirSector : Nat) (name : FsName)
    (childSector : Nat)
    (h : (dir_add fs dirSector name childSector).1 = false) :
    dir_add fs dirSector name childSector = (false, fs) := by
  unfold dir_add at h ⊢
  cases hc : dir_content fs dirSector with
  | none => rfl
  | some entries =>
    simp only [hc] at h ⊢
    by_cases hcond : (name = [] || decide (NAME_MAX < name.length)
        || entries.any (fun e => e.in_use && decide (e.name = name))) = true
    · simp [hcond]
    · simp [hcond] at h

theorem inode_remove_freeMap (fs : FS) (s : Nat) :
    (inode_remove fs s).freeMap = fs.freeMap := by
  unfold inode_remove
  cases inode_get fs s <;> rfl

theorem inode_remove_dirs (fs : FS) (s : Nat) :
    (inode_remove fs s).dirs = fs.dirs := by
  unfold inode_remove
  cases inode_get fs s <;> rfl

theorem alist_get_mem {α : Type} : ∀ (l : List (Nat × α)) (k : Nat) (v : α),
    alist_get l k = some v → (k, v) ∈ l := by
  intro l
  induction l with
  | nil => intro k v h; simp [alist_get] at h
  | cons kv rest ih =>
    rcases kv with ⟨k0, v0⟩
    intro k v h
    simp only [alist_get] at h
    by_cases hk : k0 = k
    · rw [if_pos hk] at h
      injection h with h
      subst hk
      subst h
      exact List.mem_cons_self _ _
    · rw [if_neg hk] at h
      exact List.mem_cons_of_mem _ (ih k v h)

theorem wf_key_not_free (fs : FS) (hwf : fs.wf = true) (k : Nat) (v : InodeData)
    (h : inode_get fs k = some v) : fs.freeMap[k]? = some false := by
  have hmem := alist_get_mem fs.inodes k v h
  unfold FS.wf at hwf
  rw [Bool.and_eq_true] at hwf
  have := List.all_eq_true.mp hwf.1 (k, v) hmem
  simpa using this

theorem inode_is_dir_some (fs : FS) (s : Nat) (h : inode_is_dir fs s = true) :
    ∃ v, inode_get fs s = some v := by
  unfold inode_is_dir at h
  cases hg : inode_get fs s with
  | none => rw [hg] at h; cases h
  | some v => exact ⟨v, rfl⟩

theorem dir_walk_is_dir (fs : FS) : ∀ (comps : List FsName) (cur pd : Nat),
    inode_is_dir fs cur = true → dir_walk fs cur comps = some pd →
    inode_is_dir fs pd = true := by
  intro comps
  induction comps with
  | nil =>
    intro cur pd h hw
    simp [dir_walk] at hw
    rw [← hw]
    exact h
  | cons c rest ih =>
    intro cur pd h hw
    simp only [dir_walk] at hw
    cases hl : dir_lookup fs cur c with
    | none => rw [hl] at hw; cases hw
    | some s =>
      simp only [hl] at hw
      by_cases hd : inode_is_dir fs s = true
      · rw [if_pos hd] at hw
        exact ih s pd hd hw
      · rw [if_neg hd] at hw
        cases hw

theorem parent_dir_is_dir (fs : FS) (ctx : Ctx) (p : FsPath) (pd : Nat)
    (h : dir_get_parent_dir fs ctx p = some pd) : inode_is_dir fs pd = true := by
  simp only [dir_get_parent_dir] at h
  generalize hstart :
    (if path_is_absolute p then ROOT_DIR_SECTOR else ctx.cwd_sector) = start at h
  by_cases hd : inode_is_dir fs start = true
  · rw [if_pos hd] at h
    exact dir_walk_is_dir fs (parent_comps p) start pd hd h
  · rw [if_neg hd] at h
    cases h

theorem list_getElem_set_self : ∀ (l : List Bool) (i : Nat) (a : Bool),
    i < l.length → (l.set i a)[i]? = some a := by
  intro l
  induction l with
  | nil => intro i a h; simp at h
  | cons b rest ih =>
    intro i a h
    cases i with
    | zero => simp [List.set]
    | succ j =>
      simp only [List.set]
      simpa using ih j a (by simpa using h)

theorem list_getElem_lt : ∀ (l : List Bool) (i : Nat) (a : Bool),
    l[i]? = some a → i < l.length := by
  intro l
  induction l with
  | nil => intro i a h; simp at h
  | cons b rest ih =>
    intro i a h
    cases i with
    | zero => simp
    | succ j =>
      simp at h ⊢
      exact ih j a h

/-- Claim C1 (amended): once `_filesys_create` has allocated a sector,
a failure of the content-initialization step (`dir_create` /
`inode_create`) makes the operation return false with the filesystem
state — free map and parent directory included — exactly as before; a
failure of the linking step (`dir_add`) makes it return false with the
parent directory's contents unchanged (no entry for the leaf is added)
and the allocated home sector released, but any data sectors reserved by
the successful content initialization remain allocated, so the free map
is not restored exactly in that case. -/
theorem filesys_create_rollback_amended
    (fs : FS) (ctx : Ctx) (p : FsPath) (sz : Nat) (d : Bool)
    (leaf : FsName) (pd s : Nat) (fm1 : List Bool)
    (hwf : fs.wf = true)
    (hleaf : dir_get_leaf_name p = (true, leaf))
    (hpd : dir_get_parent_dir fs ctx p = some pd)
    (halloc : free_map_allocate_one fs.freeMap = some (s, fm1)) :
    ((if d then
        dir_create { fs with freeMap := fm1 } s (BLOCK_SECTOR_SIZE / sizeof_dir_entry)
      else inode_create { fs with freeMap := fm1 } s sz) = none →
        _filesys_create_body fs ctx p sz d = (false, fs))
  ∧ (∀ fs2,
      (if d then
          dir_create { fs with freeMap := fm1 } s (BLOCK_SECTOR_SIZE / sizeof_dir_entry)
        else inode_create { fs with freeMap := fm1 } s sz) = some fs2 →
      (dir_add fs2 pd leaf s).1 = false →
        (_filesys_create_body fs ctx p sz d).1 = false
      ∧ dir_content (_filesys_create_body fs ctx p sz d).2 pd = dir_content fs pd
      ∧ ((_filesys_create_body fs ctx p sz d).2.freeMap)[s]? = some true) := by
  obtain ⟨hget, hfm⟩ := free_map_allocate_one_some _ _ _ halloc
  constructor
  · intro hcr
    have hrel : free_map_release s 1 fm1 = fs.freeMap := by
      have hone : free_map_release s 1 fm1 = fm1.set s true := rfl
      rw [hone, hfm]
      exact list_set_set_cancel fs.freeMap s hget
    simp only [_filesys_create_body, hleaf, hpd, halloc, hcr, hrel]
  · intro fs2 hcr hadd
    have haddeq := dir_add_fail_eq fs2 pd leaf s hadd
    have hpdir := parent_dir_is_dir fs ctx p pd hpd
    obtain ⟨v, hv⟩ := inode_is_dir_some fs pd hpdir
    have hpdfalse : fs.freeMap[pd]? = some false := wf_key_not_free fs hwf pd v hv
    have hpds : pd ≠ s := by
      intro he
      rw [he, hget] at hpdfalse
      simp at hpdfalse
    have hparts : fs2.freeMap.length = fs.freeMap.length
        ∧ dir_content fs2 pd = dir_content fs pd := by
      cases d with
      | true =>
        rw [if_pos rfl] at hcr
        obtain ⟨hlen, hpd2⟩ := dir_create_parts { fs with freeMap := fm1 } s _ fs2 hcr
        constructor
        · rw [hlen, hfm]
          simp
        · rw [hpd2 pd hpds]
          rfl
      | false =>
        rw [if_neg (by simp)] at hcr
        obtain ⟨hlen, hdirs⟩ :=
          inode_create_aux_parts { fs with freeMap := fm1 } s sz false fs2 hcr
        constructor
        · rw [hlen, hfm]
          simp
        · unfold dir_content
          rw [hdirs]
    obtain ⟨hlen2, hcontent⟩ := hparts
    have hslt : s < fs2.freeMap.length := by
      rw [hlen2]
      exact list_getElem_lt fs.freeMap s true hget
    simp only [_filesys_create_body, hleaf, hpd, halloc, hcr, haddeq]
    refine ⟨by trivial, ?_, ?_⟩
    · have hstep : dir_content (inode_remove fs2 s) pd = dir_content fs2 pd := by
        unfold dir_content
        rw [inode_remove_dirs]
      calc dir_content { inode_remove fs2 s with
              freeMap := free_map_release s 1 (inode_remove fs2 s).freeMap } pd
          = dir_content (inode_remove fs2 s) pd := rfl
        _ = dir_content fs2 pd := hstep
        _ = dir_content fs pd := hcontent
    · have hrel : free_map_release s 1 (inode_remove fs2 s).freeMap
          = fs2.freeMap.set s true := by
        have hone : free_map_release s 1 (inode_remove fs2 s).freeMap
            = ((inode_remove fs2 s).freeMap).set s true := rfl
        rw [hone, inode_remove_freeMap]
      show (free_map_release s 1 (inode_remove fs2 s).freeMap)[s]? = some true
      rw [hrel]
      exact list_getElem_set_self fs2.freeMap s true hslt

/-- Concrete state for the C1 counterexample: the root already holds an
in-use entry `d` (for sector 5), so `dir_add` fails after a successful
`dir_create` has consumed a data sector. -/
def fsDup : FS :=
  { freeMap := [false, false, true, true, true, false],
    inodes := [(1, ⟨0, true, 1, [], false⟩), (5, ⟨0, false, 1, [], false⟩)],
    dirs := [(1, [⟨5, ['d'], true⟩])] }

/-- Claim C1 (counterexample): `filesys_mkdir` on a duplicate name fails
after allocating, but the final free map differs from the initial one —
the data sector consumed by the successful `dir_create` is never
released, contradicting the claimed exact restoration. -/
theorem filesys_mkdir_rollback_counterexample :
    (filesys_mkdir fsDup { cwd_sector := ROOT_DIR_SECTOR } ['d']).1 = false
  ∧ (filesys_mkdir fsDup { cwd_sector := ROOT_DIR_SECTOR } ['d']).2.freeMap
      ≠ fsDup.freeMap := by
  decide

/-- Concrete state for the C1 witness: one free sector only, so the
`dir_create` of a mkdir fails after the allocation. -/
def fsTight : FS :=
  { freeMap := [false, false, true],
    inodes := [(1, ⟨0, true, 1, [], false⟩)],
    dirs := [(1, [])] }

/-- Witness for C1's amended theorem: a mkdir whose content
initialization fails restores the state exactly. -/
theorem filesys_create_rollback_amended_witness :
    _filesys_create_body fsTight { cwd_sector := 1 } ['d'] 0 true
      = (false, fsTight) :=
  (filesys_create_rollback_amended fsTight { cwd_sector := 1 } ['d'] 0 true
    ['d'] 1 2 [false, false, false]
    (by decide) (by decide) (by decide) (by decide)).1 (by decide)
